import Mathlib

/-!
Verification of the avesia node-graph layer.

This file gives a shallow embedding of the repository's graph code:

* `canConnectNodes`, `reactFlowToUserNodes`, `userNodesToReactFlow`
  from the node-utilities module (conversion and validation functions);
* `onConnect` from the project-view canvas component, together with a
  model of the `addEdge` helper it calls from the `@xyflow/react`
  library (modelled from that library's documented behaviour: an edge
  with a missing endpoint is not added, a connection that already
  exists is not duplicated, otherwise the edge is appended);
* `delete_node` of the Python user-nodes store, which the repository
  documents but whose implementation file is not present; it is
  modelled from the spec.

JavaScript strings are `String`; `undefined`-able object fields are
`Option String`; the JS `x || d` default (which also replaces the empty
string, since `""` is falsy) is `jsOr`.  Node positions are integer
points.  Edge objects are reduced to their `source`/`target` ids: the
embedded code never reads an edge id or marker, and the produced
`id`/`markerEnd` fields are functions of `source`/`target` alone.
-/

/-- A 2-D canvas position. -/
structure Pt where
  x : Int
  y : Int
deriving Repr, DecidableEq

/-- The data payload of a React Flow node.  Only the fields the embedded
code reads or writes are modelled; each is `Option String` because a JS
object may lack it.  Callback fields (`onTypeChange`, …) are omitted:
the conversion code only ever stores the constant `null` in them. -/
structure RFData where
  name : Option String := none
  listener_type : Option String := none
  condition_type : Option String := none
  threshold : Option String := none
  event_type : Option String := none
  action : Option String := none
  message : Option String := none
  recipient : Option String := none
  number : Option String := none
  accessory_type : Option String := none
  description : Option String := none
deriving Repr, DecidableEq

/-- A React Flow node: id, type string, position, data payload. -/
structure RFNode where
  id : String
  type : String
  position : Pt
  data : RFData
deriving Repr, DecidableEq

/-- A React Flow edge, reduced to its endpoints. -/
structure RFEdge where
  source : String
  target : String
deriving Repr, DecidableEq

/-- The connection parameters React Flow hands to `onConnect`. -/
structure ConnParams where
  source : String
  target : String
deriving Repr, DecidableEq

/-- JS `x || d` on an optional string: `undefined` and `""` are falsy. -/
def jsOr (x : Option String) (d : String) : String :=
  match x with
  | none => d
  | some s => if s = "" then d else s

/-- JS `nodes.find((n) => n.id === i)`. -/
def findNode (nodes : List RFNode) (i : String) : Option RFNode :=
  nodes.find? (fun n => n.id == i)

/-- `canConnectNodes` from the node-utilities module: the fixed
connection-legality table. -/
def canConnectNodes (sourceNode targetNode : RFNode) : Bool :=
  if sourceNode.type == "condition" && targetNode.type == "listener" then
    true
  else if sourceNode.type == "listener" && targetNode.type == "event" then
    true
  else if sourceNode.type == "listener" && targetNode.type == "accessory" then
    true
  else
    false

/-- Saved data of a listener in the UserNodes format. -/
structure ListenerData where
  name : Option String := none
  listener_type : Option String := none
  description : Option String := none
deriving Repr, DecidableEq

/-- Saved data of a condition in the UserNodes format. -/
structure CondData where
  name : Option String := none
  condition_type : Option String := none
  threshold : Option String := none
  description : Option String := none
deriving Repr, DecidableEq

/-- Saved data of an event in the UserNodes format. -/
structure EventData where
  name : Option String := none
  event_type : Option String := none
  action : Option String := none
  message : Option String := none
  recipient : Option String := none
  number : Option String := none
  description : Option String := none
deriving Repr, DecidableEq

/-- Saved data of an accessory in the UserNodes format. -/
structure AccData where
  name : Option String := none
  accessory_type : Option String := none
deriving Repr, DecidableEq

/-- One condition entry under a listener in the UserNodes format. -/
structure CondEntry where
  condition_id : String
  condition_data : CondData
  position : Option Pt := none
deriving Repr, DecidableEq

/-- One event entry under a listener in the UserNodes format. -/
structure EventEntry where
  event_id : String
  event_data : EventData
  position : Option Pt := none
deriving Repr, DecidableEq

/-- One accessory entry under a listener in the UserNodes format. -/
structure AccEntry where
  accessory_id : String
  accessory_data : AccData
  position : Option Pt := none
deriving Repr, DecidableEq

/-- One listener block in the UserNodes format.  A JS object with no
`accessories` field is modelled by the empty list (the converter only
ever tests emptiness and iterates). -/
structure ListenerEntry where
  listener_id : String
  listener_data : ListenerData
  listener_position : Option Pt := none
  conditions : List CondEntry := []
  events : List EventEntry := []
  accessories : List AccEntry := []
deriving Repr, DecidableEq

/-- The UserNodes aggregate produced by `reactFlowToUserNodes`. -/
structure UserNodesFormat where
  listeners : List ListenerEntry
  total_listeners : Nat
deriving Repr, DecidableEq

/-- The body of the condition scan of `reactFlowToUserNodes` for one
listener id `lid` at one edge: the edge passes the filter
`e.target === listener.id && e.source`, its source is looked up, and a
condition entry is pushed exactly when the source resolves to a node of
type `"condition"`. -/
def condEntryOf (nodes : List RFNode) (lid : String) (e : RFEdge) :
    Option CondEntry :=
  if e.target == lid && e.source != "" then
    match findNode nodes e.source with
    | some c =>
        if c.type == "condition" then
          some { condition_id := c.id,
                 condition_data :=
                   { name := some (jsOr c.data.name ("condition_" ++ c.id)),
                     condition_type := some (jsOr c.data.condition_type "custom"),
                     threshold := c.data.threshold,
                     description := some (jsOr c.data.description "") },
                 position := some c.position }
        else none
    | none => none
  else none

/-- The body of the event scan of `reactFlowToUserNodes` for one
listener id `lid` at one edge (filter `e.source === listener.id &&
e.target`, push when the target resolves to an `"event"` node). -/
def eventEntryOf (nodes : List RFNode) (lid : String) (e : RFEdge) :
    Option EventEntry :=
  if e.source == lid && e.target != "" then
    match findNode nodes e.target with
    | some ev =>
        if ev.type == "event" then
          some { event_id := ev.id,
                 event_data :=
                   { name := some (jsOr ev.data.name ("event_" ++ ev.id)),
                     event_type := some (jsOr ev.data.event_type "Text"),
                     action := some (jsOr ev.data.action "notification"),
                     message := ev.data.message,
                     recipient := some (jsOr ev.data.recipient ""),
                     number := some (jsOr ev.data.number ""),
                     description := some (jsOr ev.data.description "") },
                 position := some ev.position }
        else none
    | none => none
  else none

/-- The body of the accessory scan of `reactFlowToUserNodes` for one
listener id `lid` at one edge (same filter as the event scan, push when
the target resolves to an `"accessory"` node). -/
def accEntryOf (nodes : List RFNode) (lid : String) (e : RFEdge) :
    Option AccEntry :=
  if e.source == lid && e.target != "" then
    match findNode nodes e.target with
    | some a =>
        if a.type == "accessory" then
          some { accessory_id := a.id,
                 accessory_data :=
                   { name := some (jsOr a.data.name ("accessory_" ++ a.id)),
                     accessory_type :=
                       some (jsOr a.data.accessory_type "Smart Light Bulb") },
                 position := some a.position }
        else none
    | none => none
  else none

/-- The listener block `reactFlowToUserNodes` builds for one listener
node: saved listener data and position, plus the three edge scans
(each JS `for` loop pushes at most one entry per edge, in edge order,
i.e. a `filterMap` over the edge list). -/
def listenerEntryOf (nodes : List RFNode) (edges : List RFEdge)
    (ln : RFNode) : ListenerEntry :=
  { listener_id := ln.id,
    listener_data :=
      { name := some (jsOr ln.data.name ("listener_" ++ ln.id)),
        listener_type := some (jsOr ln.data.listener_type "custom"),
        description := some (jsOr ln.data.description "") },
    listener_position := some ln.position,
    conditions := edges.filterMap (condEntryOf nodes ln.id),
    events := edges.filterMap (eventEntryOf nodes ln.id),
    accessories := edges.filterMap (accEntryOf nodes ln.id) }

/-- `reactFlowToUserNodes` from the node-utilities module: build a
listener block for every `"listener"` node, keep the blocks that have at
least one condition, event or accessory, and set `total_listeners` to
the number of kept blocks. -/
def reactFlowToUserNodes (nodes : List RFNode) (edges : List RFEdge) :
    UserNodesFormat :=
  let kept :=
    ((nodes.filter (fun n => n.type == "listener")).map
        (listenerEntryOf nodes edges)).filter
      (fun L =>
        !L.conditions.isEmpty || !L.events.isEmpty || !L.accessories.isEmpty)
  { listeners := kept, total_listeners := kept.length }

/-- The condition loop of `userNodesToReactFlow` for one listener:
builds a condition node (saved position or default at `(cx, condY)`),
an edge condition → listener, and advances `conditionY` as the source
does (`max` against a saved position, else by the 150-pixel spacing). -/
def loadConds (lid : String) (cx : Int) : Int → List CondEntry →
    List RFNode × List RFEdge
  | _, [] => ([], [])
  | condY, c :: rest =>
      let node : RFNode :=
        { id := c.condition_id, type := "condition",
          position := c.position.getD ⟨cx, condY⟩,
          data :=
            { name := some (jsOr c.condition_data.name
                ("condition_" ++ c.condition_id)),
              condition_type := some (jsOr c.condition_data.condition_type "custom"),
              threshold := c.condition_data.threshold,
              description := some (jsOr c.condition_data.description "") } }
      let condY2 : Int :=
        match c.position with
        | some p => max condY (p.y + 150)
        | none => condY + 150
      let (ns, es) := loadConds lid cx condY2 rest
      (node :: ns, ⟨c.condition_id, lid⟩ :: es)

/-- The event loop of `userNodesToReactFlow` for one listener: builds an
event node (saved position or default at `(cx + 400, eventY)`) and an
edge listener → event.  The rebuilt event data carries `name`,
`event_type`, `action`, `message` and `description` only — the source
does not copy `recipient` or `number` back. -/
def loadEvents (lid : String) (cx : Int) : Int → List EventEntry →
    List RFNode × List RFEdge
  | _, [] => ([], [])
  | eventY, ev :: rest =>
      let node : RFNode :=
        { id := ev.event_id, type := "event",
          position := ev.position.getD ⟨cx + 400, eventY⟩,
          data :=
            { name := some (jsOr ev.event_data.name ("event_" ++ ev.event_id)),
              event_type := some (jsOr ev.event_data.event_type "Text"),
              action := some (jsOr ev.event_data.action "notification"),
              message := ev.event_data.message,
              description := some (jsOr ev.event_data.description "") } }
      let eventY2 : Int :=
        match ev.position with
        | some p => max eventY (p.y + 150)
        | none => eventY + 150
      let (ns, es) := loadEvents lid cx eventY2 rest
      (node :: ns, ⟨lid, ev.event_id⟩ :: es)

/-- The accessory loop of `userNodesToReactFlow` for one listener:
builds an accessory node (saved position or default at
`(cx + 400, accessoryY)`) and an edge listener → accessory. -/
def loadAccs (lid : String) (cx : Int) : Int → List AccEntry →
    List RFNode × List RFEdge
  | _, [] => ([], [])
  | accY, a :: rest =>
      let node : RFNode :=
        { id := a.accessory_id, type := "accessory",
          position := a.position.getD ⟨cx + 400, accY⟩,
          data :=
            { name := some (jsOr a.accessory_data.name
                ("accessory_" ++ a.accessory_id)),
              accessory_type :=
                some (jsOr a.accessory_data.accessory_type "Smart Light Bulb") } }
      let accY2 : Int :=
        match a.position with
        | some p => max accY (p.y + 150)
        | none => accY + 150
      let (ns, es) := loadAccs lid cx accY2 rest
      (node :: ns, ⟨lid, a.accessory_id⟩ :: es)

/-- The outer listener loop of `userNodesToReactFlow`: for each listener
block, a listener node (saved position or default at
`(cx + 200, currentY)`), then its condition, event and accessory nodes
and edges; `currentY` then advances by the largest of the three row
heights and one spacing unit. -/
def loadListeners (cx : Int) : Int → List ListenerEntry →
    List RFNode × List RFEdge
  | _, [] => ([], [])
  | curY, L :: rest =>
      let lnode : RFNode :=
        { id := L.listener_id, type := "listener",
          position := L.listener_position.getD ⟨cx + 200, curY⟩,
          data :=
            { name := some (jsOr L.listener_data.name
                ("listener_" ++ L.listener_id)),
              listener_type := some (jsOr L.listener_data.listener_type "custom"),
              description := some (jsOr L.listener_data.description "") } }
      let (cns, ces) := loadConds L.listener_id cx curY L.conditions
      let (ens, ees) := loadEvents L.listener_id cx curY L.events
      let (ans, aes) := loadAccs L.listener_id cx curY L.accessories
      let curY2 : Int := curY +
        max (max ((L.conditions.length : Int) * 150)
                 ((L.events.length : Int) * 150))
            (max ((L.accessories.length : Int) * 150) 150)
      let (rns, res) := loadListeners cx curY2 rest
      (lnode :: (cns ++ ens ++ ans ++ rns), ces ++ ees ++ aes ++ res)

/-- `userNodesToReactFlow` from the node-utilities module, at the
default base position `{x: 250, y: 100}` used by every call site. -/
def userNodesToReactFlow (d : UserNodesFormat) :
    List RFNode × List RFEdge :=
  loadListeners 250 100 d.listeners

/-- Modelled from the `@xyflow/react` library (not part of this
repository): `addEdge` ignores a connection with a missing endpoint,
returns the edge list unchanged when the same source/target connection
already exists, and otherwise appends the new edge. -/
def addEdge (p : ConnParams) (eds : List RFEdge) : List RFEdge :=
  if p.source == "" || p.target == "" then eds
  else if eds.any (fun e => e.source == p.source && e.target == p.target) then
    eds
  else eds ++ [⟨p.source, p.target⟩]

/-- `onConnect` from the project-view canvas: when both endpoint ids
resolve to nodes, an illegal kind pair or an already-linked condition
source is rejected with an alert (first component) and the edge list is
left unchanged; otherwise — including when an endpoint does not
resolve — the connection goes to `addEdge`. -/
def onConnect (nodes : List RFNode) (edges : List RFEdge)
    (p : ConnParams) : Option String × List RFEdge :=
  match findNode nodes p.source, findNode nodes p.target with
  | some s, some t =>
      if !(canConnectNodes s t) then
        (some ("Invalid connection: " ++ s.type ++ " cannot connect to " ++
          t.type ++
          ". Only Condition→Listener, Listener→Event, and Listener→Accessory are allowed."),
         edges)
      else if s.type == "condition" &&
          (edges.filter (fun e => e.source == p.source)).length > 0 then
        (some "Condition can only be connected to one Listener.", edges)
      else
        (none, addEdge p edges)
  | _, _ => (none, addEdge p edges)

/-- A sequence of `onConnect` steps against a fixed node list (node
state is unchanged by connecting). -/
def runConnects (nodes : List RFNode) : List RFEdge → List ConnParams →
    List RFEdge
  | edges, [] => edges
  | edges, p :: ps => runConnects nodes (onConnect nodes edges p).2 ps

/-- The Condition fan-out invariant: every `"condition"` node has at
most one outgoing edge, and any outgoing edge it has targets a
`"listener"` node of the state. -/
def condInvariant (nodes : List RFNode) (edges : List RFEdge) : Prop :=
  ∀ n ∈ nodes, n.type = "condition" →
    (edges.filter (fun e => e.source == n.id)).length ≤ 1 ∧
    ∀ e ∈ edges.filter (fun e => e.source == n.id),
      ∃ t ∈ nodes, t.id = e.target ∧ t.type = "listener"

/-- The Event terminality invariant: no `"event"` node has an outgoing
edge. -/
def eventInvariant (nodes : List RFNode) (edges : List RFEdge) : Prop :=
  ∀ n ∈ nodes, n.type = "event" →
    edges.filter (fun e => e.source == n.id) = []

/-- Modelled from the spec: a record of the Python user-nodes store.
The store implementation the repository documents (`Node`,
`UserNodes.delete_node`, …) is not present under src, only its
documentation; a node carries an id, a type string, a payload and the
`next_nodes` list of outgoing ids. -/
structure PyNode where
  node_id : String
  node_type : String
  data : List (String × String) := []
  next_nodes : List String := []
deriving Repr, DecidableEq

/-- Modelled from the spec: `delete_node` removes the node with the
given id from the store and purges every reference to that id from the
remaining nodes' `next_nodes` lists ("Deletes a node from cache, disk,
and removes all references to it from other nodes"). -/
def delete_node (store : List PyNode) (nid : String) : List PyNode :=
  (store.filter (fun n => n.node_id != nid)).map
    (fun n => { n with next_nodes := n.next_nodes.filter (fun m => m != nid) })

instance (nodes : List RFNode) (edges : List RFEdge) :
    Decidable (condInvariant nodes edges) := by
  unfold condInvariant; infer_instance

instance (nodes : List RFNode) (edges : List RFEdge) :
    Decidable (eventInvariant nodes edges) := by
  unfold eventInvariant; infer_instance

/-- A demo condition payload. -/
def cData : RFData :=
  { name := some "C1", condition_type := some "zone",
    threshold := some "5", description := some "near door" }

/-- A demo listener payload. -/
def lData : RFData :=
  { name := some "L1", listener_type := some "motion",
    description := some "watch gate" }

/-- A demo event payload carrying the Email fields. -/
def eData : RFData :=
  { name := some "E1", event_type := some "Email",
    action := some "notification", message := some "hello",
    recipient := some "bob@example.com", number := some "5551234",
    description := some "mail bob" }

/-- A demo accessory payload. -/
def aData : RFData :=
  { name := some "A1", accessory_type := some "Smart Light Bulb" }

/-- Demo condition node `c`. -/
def cNode : RFNode := { id := "c", type := "condition", position := ⟨1, 2⟩, data := cData }

/-- Demo listener node `l`. -/
def lNode : RFNode := { id := "l", type := "listener", position := ⟨3, 4⟩, data := lData }

/-- Demo event node `e`. -/
def eNode : RFNode := { id := "e", type := "event", position := ⟨5, 6⟩, data := eData }

/-- Demo accessory node `a`. -/
def aNode : RFNode := { id := "a", type := "accessory", position := ⟨7, 8⟩, data := aData }

/-- A demo canvas: one node of each kind. -/
def demoNodes : List RFNode := [cNode, lNode, eNode, aNode]

/-- The legal demo wiring: c → l, l → e, l → a. -/
def demoEdges : List RFEdge := [⟨"c", "l"⟩, ⟨"l", "e"⟩, ⟨"l", "a"⟩]

/-- A demo Python store: one condition pointing at a listener, the
listener pointing at an event. -/
def demoStore : List PyNode :=
  [{ node_id := "c1", node_type := "condition", next_nodes := ["l1"] },
   { node_id := "l1", node_type := "listener", next_nodes := ["e1"] },
   { node_id := "e1", node_type := "event", next_nodes := [] }]

/-- The connection table characterised as a predicate on the two type
fields (shared helper). -/
theorem canConnect_table (s t : RFNode) :
    canConnectNodes s t = true ↔
      ((s.type = "condition" ∧ t.type = "listener") ∨
       (s.type = "listener" ∧ t.type = "event") ∨
       (s.type = "listener" ∧ t.type = "accessory")) := by
  unfold canConnectNodes
  split_ifs with h1 h2 h3 <;>
    simp_all [Bool.and_eq_true, beq_iff_eq]

/-- C1: `canConnectNodes` accepts exactly the pairs
(Condition, Listener), (Listener, Event), (Listener, Accessory), judged
solely by the two nodes' type fields; every other ordered pair is
rejected. -/
theorem canConnectNodes_exactly_three_pairs (s t : RFNode) :
    canConnectNodes s t = true ↔
      ((s.type = "condition" ∧ t.type = "listener") ∨
       (s.type = "listener" ∧ t.type = "event") ∨
       (s.type = "listener" ∧ t.type = "accessory")) :=
  canConnect_table s t

/-- C2 counterexample: from a state satisfying the Condition fan-out
invariant, a single `onConnect` whose target id resolves to no node
bypasses validation (the `sourceNode && targetNode` guard fails), adds
the edge, and gives the condition node `c` a second outgoing edge whose
target is not a Listener. -/
theorem condInvariant_broken_by_dangling_target :
    condInvariant demoNodes demoEdges ∧
    (onConnect demoNodes demoEdges ⟨"c", "ghost"⟩).2 =
      demoEdges ++ [⟨"c", "ghost"⟩] ∧
    ¬ condInvariant demoNodes
        (onConnect demoNodes demoEdges ⟨"c", "ghost"⟩).2 := by
  refine ⟨by decide, by decide, by decide⟩

/-- C7 counterexample: from a state satisfying Event terminality, a
single `onConnect` from the event node `e` to an id that resolves to no
node bypasses validation and gives `e` an outgoing edge. -/
theorem eventInvariant_broken_by_dangling_target :
    eventInvariant demoNodes demoEdges ∧
    (onConnect demoNodes demoEdges ⟨"e", "nowhere"⟩).2 =
      demoEdges ++ [⟨"e", "nowhere"⟩] ∧
    ¬ eventInvariant demoNodes
        (onConnect demoNodes demoEdges ⟨"e", "nowhere"⟩).2 := by
  refine ⟨by decide, by decide, by decide⟩

/-- C5 counterexample: the pair (c, l) is already linked, yet a second
`onConnect (c, l)` reports the already-linked alert instead of
completing silently (the edge set is nevertheless unchanged). -/
theorem relink_condition_reports_error :
    (⟨"c", "l"⟩ : RFEdge) ∈ demoEdges ∧
    (onConnect demoNodes demoEdges ⟨"c", "l"⟩).1 =
      some "Condition can only be connected to one Listener." ∧
    (onConnect demoNodes demoEdges ⟨"c", "l"⟩).2 = demoEdges := by
  refine ⟨by decide, by decide, by decide⟩

/-- C4 counterexample: a visual graph with the illegal edge c → e
(condition → event) converts without any error to exactly the output of
the graph without that edge — the illegal edge is silently dropped and
a normal (partial) result is committed, not an abort. -/
theorem illegal_edge_silently_dropped :
    canConnectNodes cNode eNode = false ∧
    reactFlowToUserNodes demoNodes (⟨"c", "e"⟩ :: demoEdges) =
      reactFlowToUserNodes demoNodes demoEdges ∧
    (reactFlowToUserNodes demoNodes (⟨"c", "e"⟩ :: demoEdges)).total_listeners
      = 1 := by
  refine ⟨by decide, by decide, by decide⟩

/-- C3 (code evaluated at the failing input): the event node `e` enters
the round trip with `recipient` and `number` set; `reactFlowToUserNodes`
saves both, but `userNodesToReactFlow` rebuilds the event node without
them, so the round trip loses the two fields. -/
theorem roundtrip_drops_event_recipient_and_number :
    eNode ∈ demoNodes ∧
    eNode.data.recipient = some "bob@example.com" ∧
    eNode.data.number = some "5551234" ∧
    (((reactFlowToUserNodes demoNodes demoEdges).listeners.head?).map
        (fun L => L.events.map (fun ev =>
          (ev.event_data.recipient, ev.event_data.number)))) =
      some [(some "bob@example.com", some "5551234")] ∧
    ((userNodesToReactFlow (reactFlowToUserNodes demoNodes demoEdges)).1.find?
        (fun n => n.id == "e")).map
        (fun n => (n.data.recipient, n.data.number)) =
      some (none, none) := by
  refine ⟨by decide, by decide, by decide, by decide, by decide⟩

/-- A successful `findNode` returns a member of the list bearing the
looked-up id. -/
theorem findNode_some {nodes : List RFNode} {i : String} {x : RFNode}
    (h : findNode nodes i = some x) : x ∈ nodes ∧ x.id = i := by
  refine ⟨List.mem_of_find?_eq_some h, ?_⟩
  have := List.find?_some h
  simpa using this

/-- When node ids are pairwise distinct, two members with the same id
are the same node. -/
theorem eq_of_same_id {nodes : List RFNode} {x y : RFNode}
    (hnd : (nodes.map RFNode.id).Nodup)
    (hx : x ∈ nodes) (hy : y ∈ nodes) (h : x.id = y.id) : x = y :=
  List.inj_on_of_nodup_map hnd hx hy h

/-- C6: whenever both endpoints of a link attempt resolve and the
attempt is rejected — the kind pair is illegal, or the source is a
Condition that already has an outgoing edge — `onConnect` raises the
alert and leaves the edge set exactly as it was. -/
theorem rejected_link_leaves_edges_unchanged
    (nodes : List RFNode) (edges : List RFEdge) (p : ConnParams)
    (s t : RFNode)
    (hs : findNode nodes p.source = some s)
    (ht : findNode nodes p.target = some t)
    (hrej : canConnectNodes s t = false ∨
      (s.type = "condition" ∧
        0 < (edges.filter (fun e => e.source == p.source)).length)) :
    (onConnect nodes edges p).1.isSome = true ∧
    (onConnect nodes edges p).2 = edges := by
  unfold onConnect
  rw [hs, ht]
  rcases hrej with h | ⟨h1, h2⟩
  · simp [h]
  · by_cases hc : canConnectNodes s t
    · simp [hc, h1, h2]
    · simp [hc]

/-- C6 witness: the illegal attempt e → c on the demo canvas is
rejected and the demo edges survive untouched. -/
theorem rejected_link_leaves_edges_unchanged_witness :
    (onConnect demoNodes demoEdges ⟨"e", "c"⟩).1.isSome = true ∧
    (onConnect demoNodes demoEdges ⟨"e", "c"⟩).2 = demoEdges :=
  rejected_link_leaves_edges_unchanged demoNodes demoEdges ⟨"e", "c"⟩
    eNode cNode (by decide) (by decide) (Or.inl (by decide))

/-- An id that `findNode` cannot resolve differs from every member's id. -/
theorem ne_of_findNode_none {nodes : List RFNode} {i : String}
    {ln : RFNode} (h : findNode nodes i = none) (hm : ln ∈ nodes) :
    ln.id ≠ i := by
  intro he
  have := List.find?_eq_none.mp h ln hm
  simp [he] at this

/-- The condition scan skips an edge whose target is not the listener id. -/
theorem condEntryOf_none_of_tgt_ne {nodes : List RFNode} {lid : String}
    {e : RFEdge} (h : e.target ≠ lid) : condEntryOf nodes lid e = none := by
  unfold condEntryOf
  simp [h]

/-- The condition scan skips an edge whose source resolves to no node. -/
theorem condEntryOf_none_of_src_none {nodes : List RFNode} {lid : String}
    {e : RFEdge} (h : findNode nodes e.source = none) :
    condEntryOf nodes lid e = none := by
  unfold condEntryOf
  split <;> simp [h]

/-- The condition scan skips an edge whose source resolves to a
non-condition node. -/
theorem condEntryOf_none_of_src_not_cond {nodes : List RFNode}
    {lid : String} {e : RFEdge} {s : RFNode}
    (hs : findNode nodes e.source = some s) (h : s.type ≠ "condition") :
    condEntryOf nodes lid e = none := by
  unfold condEntryOf
  split <;> simp [hs, h]

/-- The event scan skips an edge whose source is not the listener id. -/
theorem eventEntryOf_none_of_src_ne {nodes : List RFNode} {lid : String}
    {e : RFEdge} (h : e.source ≠ lid) : eventEntryOf nodes lid e = none := by
  unfold eventEntryOf
  simp [h]

/-- The event scan skips an edge whose target resolves to no node. -/
theorem eventEntryOf_none_of_tgt_none {nodes : List RFNode} {lid : String}
    {e : RFEdge} (h : findNode nodes e.target = none) :
    eventEntryOf nodes lid e = none := by
  unfold eventEntryOf
  split <;> simp [h]

/-- The event scan skips an edge whose target resolves to a non-event
node. -/
theorem eventEntryOf_none_of_tgt_not_event {nodes : List RFNode}
    {lid : String} {e : RFEdge} {t : RFNode}
    (ht : findNode nodes e.target = some t) (h : t.type ≠ "event") :
    eventEntryOf nodes lid e = none := by
  unfold eventEntryOf
  split <;> simp [ht, h]

/-- The accessory scan skips an edge whose source is not the listener id. -/
theorem accEntryOf_none_of_src_ne {nodes : List RFNode} {lid : String}
    {e : RFEdge} (h : e.source ≠ lid) : accEntryOf nodes lid e = none := by
  unfold accEntryOf
  simp [h]

/-- The accessory scan skips an edge whose target resolves to no node. -/
theorem accEntryOf_none_of_tgt_none {nodes : List RFNode} {lid : String}
    {e : RFEdge} (h : findNode nodes e.target = none) :
    accEntryOf nodes lid e = none := by
  unfold accEntryOf
  split <;> simp [h]

/-- The accessory scan skips an edge whose target resolves to a
non-accessory node. -/
theorem accEntryOf_none_of_tgt_not_acc {nodes : List RFNode}
    {lid : String} {e : RFEdge} {t : RFNode}
    (ht : findNode nodes e.target = some t) (h : t.type ≠ "accessory") :
    accEntryOf nodes lid e = none := by
  unfold accEntryOf
  split <;> simp [ht, h]

/-- An edge every scan skips can be removed from anywhere in the edge
list without changing the conversion result. -/
theorem reactFlowToUserNodes_drop_inert (nodes : List RFNode)
    (e : RFEdge) (es1 es2 : List RFEdge)
    (h : ∀ ln ∈ nodes, ln.type = "listener" →
      condEntryOf nodes ln.id e = none ∧
      eventEntryOf nodes ln.id e = none ∧
      accEntryOf nodes ln.id e = none) :
    reactFlowToUserNodes nodes (es1 ++ e :: es2) =
      reactFlowToUserNodes nodes (es1 ++ es2) := by
  unfold reactFlowToUserNodes
  have hmap : (nodes.filter (fun n => n.type == "listener")).map
        (listenerEntryOf nodes (es1 ++ e :: es2)) =
      (nodes.filter (fun n => n.type == "listener")).map
        (listenerEntryOf nodes (es1 ++ es2)) := by
    apply List.map_congr_left
    intro ln hln
    have hmem : ln ∈ nodes := (List.mem_filter.mp hln).1
    have htype : ln.type = "listener" := by
      have := (List.mem_filter.mp hln).2
      simpa using this
    obtain ⟨h1, h2, h3⟩ := h ln hmem htype
    unfold listenerEntryOf
    simp [List.filterMap_append, List.filterMap_cons, h1, h2, h3]
  rw [hmap]

/-- C10: `reactFlowToUserNodes` silently ignores dangling or
kind-mismatched edges — an edge whose source or target resolves to no
node, or whose resolved source entering a Listener is not a Condition,
or whose resolved target leaving a Listener is neither an Event nor an
Accessory, contributes nothing to the output, and no error is
reported (conversion is total). -/
theorem dangling_or_mismatched_edges_ignored (nodes : List RFNode)
    (e : RFEdge)
    (h : findNode nodes e.source = none ∨
         findNode nodes e.target = none ∨
         (∃ t, findNode nodes e.target = some t ∧ t.type = "listener" ∧
           ∃ s, findNode nodes e.source = some s ∧ s.type ≠ "condition") ∨
         (∃ s, findNode nodes e.source = some s ∧ s.type = "listener" ∧
           ∃ t, findNode nodes e.target = some t ∧ t.type ≠ "event" ∧
             t.type ≠ "accessory"))
    (es1 es2 : List RFEdge) :
    reactFlowToUserNodes nodes (es1 ++ e :: es2) =
      reactFlowToUserNodes nodes (es1 ++ es2) := by
  apply reactFlowToUserNodes_drop_inert
  intro ln hmem htype
  rcases h with hsrc | htgt | ⟨t, ht, htl, s, hs, hsnc⟩ |
    ⟨s, hs, hsl, t, ht, hte, hta⟩
  · exact ⟨condEntryOf_none_of_src_none hsrc,
      eventEntryOf_none_of_src_ne (Ne.symm (ne_of_findNode_none hsrc hmem)),
      accEntryOf_none_of_src_ne (Ne.symm (ne_of_findNode_none hsrc hmem))⟩
  · exact ⟨condEntryOf_none_of_tgt_ne (Ne.symm (ne_of_findNode_none htgt hmem)),
      eventEntryOf_none_of_tgt_none htgt,
      accEntryOf_none_of_tgt_none htgt⟩
  · exact ⟨condEntryOf_none_of_src_not_cond hs hsnc,
      eventEntryOf_none_of_tgt_not_event ht (by simp [htl]),
      accEntryOf_none_of_tgt_not_acc ht (by simp [htl])⟩
  · exact ⟨condEntryOf_none_of_src_not_cond hs (by simp [hsl]),
      eventEntryOf_none_of_tgt_not_event ht hte,
      accEntryOf_none_of_tgt_not_acc ht hta⟩

/-- C10 witness: the dangling edge c → ghost2 on the demo canvas is
ignored by the conversion. -/
theorem dangling_or_mismatched_edges_ignored_witness :
    reactFlowToUserNodes demoNodes ([] ++ ⟨"c", "ghost2"⟩ :: demoEdges) =
      reactFlowToUserNodes demoNodes ([] ++ demoEdges) :=
  dangling_or_mismatched_edges_ignored demoNodes ⟨"c", "ghost2"⟩
    (Or.inr (Or.inl (by decide))) [] demoEdges

/-- C4 amended: on a canvas with pairwise-distinct node ids, an edge
whose resolved endpoints form an illegal kind pair never makes
`reactFlowToUserNodes` abort — the conversion is total and yields
exactly the result of the edge list without that edge (the illegal edge
is silently dropped, not surfaced). -/
theorem illegal_kind_edge_never_aborts_conversion (nodes : List RFNode)
    (hnd : (nodes.map RFNode.id).Nodup) (e : RFEdge) (s t : RFNode)
    (hs : findNode nodes e.source = some s)
    (ht : findNode nodes e.target = some t)
    (hillegal : canConnectNodes s t = false) (es1 es2 : List RFEdge) :
    reactFlowToUserNodes nodes (es1 ++ e :: es2) =
      reactFlowToUserNodes nodes (es1 ++ es2) := by
  apply reactFlowToUserNodes_drop_inert
  intro ln hmem htype
  obtain ⟨hsmem, hsid⟩ := findNode_some hs
  obtain ⟨htmem, htid⟩ := findNode_some ht
  refine ⟨?_, ?_, ?_⟩
  · by_cases hc : s.type = "condition"
    · by_cases he : e.target = ln.id
      · exfalso
        have heq : t = ln := eq_of_same_id hnd htmem hmem (by rw [htid, he])
        have hcc : canConnectNodes s t = true := by
          rw [canConnect_table]
          exact Or.inl ⟨hc, by rw [heq]; exact htype⟩
        simp [hillegal] at hcc
      · exact condEntryOf_none_of_tgt_ne he
    · exact condEntryOf_none_of_src_not_cond hs hc
  · by_cases he : e.source = ln.id
    · have heq : s = ln := eq_of_same_id hnd hsmem hmem (by rw [hsid, he])
      by_cases hev : t.type = "event"
      · exfalso
        have hcc : canConnectNodes s t = true := by
          rw [canConnect_table]
          exact Or.inr (Or.inl ⟨by rw [heq]; exact htype, hev⟩)
        simp [hillegal] at hcc
      · exact eventEntryOf_none_of_tgt_not_event ht hev
    · exact eventEntryOf_none_of_src_ne he
  · by_cases he : e.source = ln.id
    · have heq : s = ln := eq_of_same_id hnd hsmem hmem (by rw [hsid, he])
      by_cases hac : t.type = "accessory"
      · exfalso
        have hcc : canConnectNodes s t = true := by
          rw [canConnect_table]
          exact Or.inr (Or.inr ⟨by rw [heq]; exact htype, hac⟩)
        simp [hillegal] at hcc
      · exact accEntryOf_none_of_tgt_not_acc ht hac
    · exact accEntryOf_none_of_src_ne he

/-- C4 amended witness: the illegal edge c → e is dropped from the demo
canvas without aborting the conversion. -/
theorem illegal_kind_edge_never_aborts_conversion_witness :
    reactFlowToUserNodes demoNodes ([] ++ ⟨"c", "e"⟩ :: demoEdges) =
      reactFlowToUserNodes demoNodes ([] ++ demoEdges) :=
  illegal_kind_edge_never_aborts_conversion demoNodes (by decide)
    ⟨"c", "e"⟩ cNode eNode (by decide) (by decide) (by decide) [] demoEdges

/-- Inversion of the condition scan: a produced entry comes from an
edge into the listener whose source resolves to a condition node whose
id the entry records. -/
theorem condEntryOf_some_inv {nodes : List RFNode} {lid : String}
    {e : RFEdge} {c : CondEntry} (h : condEntryOf nodes lid e = some c) :
    e.target = lid ∧
    ∃ cn, findNode nodes e.source = some cn ∧ cn.type = "condition" ∧
      cn.id = c.condition_id := by
  unfold condEntryOf at h
  split at h
  next hg =>
    split at h
    next cn hfind =>
      split at h
      next hty =>
        injection h with h'
        exact ⟨by simp only [Bool.and_eq_true] at hg; simpa using hg.1, cn, hfind,
          by simpa using hty, by rw [← h']⟩
      next hty => cases h
    next hfind => cases h
  next hg => cases h

/-- Inversion of the event scan: a produced entry comes from an edge
out of the listener whose target resolves to an event node whose id the
entry records. -/
theorem eventEntryOf_some_inv {nodes : List RFNode} {lid : String}
    {e : RFEdge} {ev : EventEntry} (h : eventEntryOf nodes lid e = some ev) :
    e.source = lid ∧
    ∃ en, findNode nodes e.target = some en ∧ en.type = "event" ∧
      en.id = ev.event_id := by
  unfold eventEntryOf at h
  split at h
  next hg =>
    split at h
    next en hfind =>
      split at h
      next hty =>
        injection h with h'
        exact ⟨by simp only [Bool.and_eq_true] at hg; simpa using hg.1, en, hfind,
          by simpa using hty, by rw [← h']⟩
      next hty => cases h
    next hfind => cases h
  next hg => cases h

/-- Inversion of the accessory scan: a produced entry comes from an
edge out of the listener whose target resolves to an accessory node
whose id the entry records. -/
theorem accEntryOf_some_inv {nodes : List RFNode} {lid : String}
    {e : RFEdge} {a : AccEntry} (h : accEntryOf nodes lid e = some a) :
    e.source = lid ∧
    ∃ an, findNode nodes e.target = some an ∧ an.type = "accessory" ∧
      an.id = a.accessory_id := by
  unfold accEntryOf at h
  split at h
  next hg =>
    split at h
    next an hfind =>
      split at h
      next hty =>
        injection h with h'
        exact ⟨by simp only [Bool.and_eq_true] at hg; simpa using hg.1, an, hfind,
          by simpa using hty, by rw [← h']⟩
      next hty => cases h
    next hfind => cases h
  next hg => cases h

/-- C9: the output of `reactFlowToUserNodes` satisfies
`total_listeners = listeners.length`; every emitted block stems from a
`"listener"` node of the input and has at least one condition, event or
accessory; and each of its entries is witnessed by an input edge whose
other endpoint resolves to a node of the expected kind (so every
emitted listener has a connected Condition, Event or Accessory, and
connection-free listeners are omitted). -/
theorem reactFlowToUserNodes_listeners_wellformed (nodes : List RFNode)
    (edges : List RFEdge) :
    (reactFlowToUserNodes nodes edges).total_listeners =
      (reactFlowToUserNodes nodes edges).listeners.length ∧
    ∀ L ∈ (reactFlowToUserNodes nodes edges).listeners,
      (∃ n ∈ nodes, n.type = "listener" ∧ n.id = L.listener_id) ∧
      (L.conditions ≠ [] ∨ L.events ≠ [] ∨ L.accessories ≠ []) ∧
      (∀ c ∈ L.conditions, ∃ ed ∈ edges, ed.target = L.listener_id ∧
        ∃ cn, findNode nodes ed.source = some cn ∧ cn.type = "condition" ∧
          cn.id = c.condition_id) ∧
      (∀ ev ∈ L.events, ∃ ed ∈ edges, ed.source = L.listener_id ∧
        ∃ en, findNode nodes ed.target = some en ∧ en.type = "event" ∧
          en.id = ev.event_id) ∧
      (∀ a ∈ L.accessories, ∃ ed ∈ edges, ed.source = L.listener_id ∧
        ∃ an, findNode nodes ed.target = some an ∧ an.type = "accessory" ∧
          an.id = a.accessory_id) := by
  constructor
  · rfl
  · intro L hL
    have hL' : L ∈ ((nodes.filter (fun n => n.type == "listener")).map
        (listenerEntryOf nodes edges)).filter
        (fun L => !L.conditions.isEmpty || !L.events.isEmpty ||
          !L.accessories.isEmpty) := hL
    have hmap := (List.mem_filter.mp hL').1
    have hpred := (List.mem_filter.mp hL').2
    obtain ⟨ln, hln, hLeq⟩ := List.mem_map.mp hmap
    have hlnmem : ln ∈ nodes := (List.mem_filter.mp hln).1
    have hlntype : ln.type = "listener" := by
      simpa using (List.mem_filter.mp hln).2
    subst hLeq
    refine ⟨⟨ln, hlnmem, hlntype, rfl⟩, ?_, ?_, ?_, ?_⟩
    · simpa [Bool.or_eq_true, List.isEmpty_iff, or_assoc] using hpred
    · intro c hc
      obtain ⟨ed, hed, hsome⟩ := List.mem_filterMap.mp hc
      obtain ⟨htgt, cn, hcn⟩ := condEntryOf_some_inv hsome
      exact ⟨ed, hed, htgt, cn, hcn⟩
    · intro ev hev
      obtain ⟨ed, hed, hsome⟩ := List.mem_filterMap.mp hev
      obtain ⟨hsrc, en, hen⟩ := eventEntryOf_some_inv hsome
      exact ⟨ed, hed, hsrc, en, hen⟩
    · intro a ha
      obtain ⟨ed, hed, hsome⟩ := List.mem_filterMap.mp ha
      obtain ⟨hsrc, an, han⟩ := accEntryOf_some_inv hsome
      exact ⟨ed, hed, hsrc, an, han⟩

/-- C9 witness: on the demo canvas the emitted block for listener l is
backed by the listener node and nonempty scans. -/
theorem reactFlowToUserNodes_listeners_wellformed_witness :
    (reactFlowToUserNodes demoNodes demoEdges).total_listeners =
      (reactFlowToUserNodes demoNodes demoEdges).listeners.length ∧
    (∃ n ∈ demoNodes, n.type = "listener" ∧
      n.id = (listenerEntryOf demoNodes demoEdges lNode).listener_id) :=
  ⟨(reactFlowToUserNodes_listeners_wellformed demoNodes demoEdges).1,
   (((reactFlowToUserNodes_listeners_wellformed demoNodes demoEdges).2
      (listenerEntryOf demoNodes demoEdges lNode) (by decide))).1⟩

/-- C5 amended: re-linking an already linked pair never changes the
edge set.  When both endpoints resolve, the duplicate completes as a
silent no-op success exactly for a legal non-Condition (i.e. Listener)
source; for a Condition source the duplicate attempt is rejected with
an alert instead (but still leaves the edges untouched). -/
theorem relink_existing_pair_preserves_edges (nodes : List RFNode)
    (edges : List RFEdge) (p : ConnParams)
    (hdup : (⟨p.source, p.target⟩ : RFEdge) ∈ edges) :
    (onConnect nodes edges p).2 = edges ∧
    (∀ s t, findNode nodes p.source = some s →
      findNode nodes p.target = some t → canConnectNodes s t = true →
      s.type ≠ "condition" → (onConnect nodes edges p).1 = none) ∧
    (∀ s t, findNode nodes p.source = some s →
      findNode nodes p.target = some t → s.type = "condition" →
      (onConnect nodes edges p).1.isSome = true) := by
  have hany : edges.any
      (fun e => e.source == p.source && e.target == p.target) = true :=
    List.any_eq_true.mpr ⟨⟨p.source, p.target⟩, hdup, by simp⟩
  have hadd : addEdge p edges = edges := by
    unfold addEdge
    simp [hany]
  have hpos : 0 < (edges.filter (fun e => e.source == p.source)).length := by
    have hmem : (⟨p.source, p.target⟩ : RFEdge) ∈
        edges.filter (fun e => e.source == p.source) :=
      List.mem_filter.mpr ⟨hdup, by simp⟩
    exact List.length_pos.mpr (List.ne_nil_of_mem hmem)
  refine ⟨?_, ?_, ?_⟩
  · unfold onConnect
    cases hfs : findNode nodes p.source with
    | none => simp [hadd]
    | some s =>
      cases hft : findNode nodes p.target with
      | none => simp [hadd]
      | some t =>
          by_cases hcan : canConnectNodes s t
          · by_cases hgate : (s.type == "condition" &&
              decide (0 < (edges.filter (fun e => e.source == p.source)).length)) = true
            · simp [hcan, hgate, hadd]
            · simp [hcan, hgate, hadd]
          · simp [hcan, hadd]
  · intro s t hs ht hcan hnc
    unfold onConnect
    rw [hs, ht]
    have hb : (s.type == "condition") = false := by simpa using hnc
    simp [hcan, hb]
  · intro s t hs ht hc
    unfold onConnect
    rw [hs, ht]
    by_cases hcan : canConnectNodes s t
    · have hb : (s.type == "condition") = true := by simpa using hc
      simp [hcan, hb, hpos]
    · simp [hcan]

/-- C5 amended witness: duplicating the listener → event link on the
demo canvas is a silent no-op. -/
theorem relink_existing_pair_preserves_edges_witness :
    (onConnect demoNodes demoEdges ⟨"l", "e"⟩).2 = demoEdges ∧
    (onConnect demoNodes demoEdges ⟨"l", "e"⟩).1 = none :=
  ⟨(relink_existing_pair_preserves_edges demoNodes demoEdges ⟨"l", "e"⟩
      (by decide)).1,
   (relink_existing_pair_preserves_edges demoNodes demoEdges ⟨"l", "e"⟩
      (by decide)).2.1 lNode eNode (by decide) (by decide) (by decide)
      (by decide)⟩

/-- An Event source fails the connection table against every target. -/
theorem canConnectNodes_false_of_event {s t : RFNode}
    (h : s.type = "event") : canConnectNodes s t = false := by
  unfold canConnectNodes
  simp [h]

/-- Adding a validated edge preserves the Condition fan-out invariant:
the appended edge either leaves a condition node's filter untouched or
is its first outgoing edge and targets the resolved listener. -/
theorem condInvariant_addEdge (nodes : List RFNode) (edges : List RFEdge)
    (p : ConnParams) (s t : RFNode)
    (hnd : (nodes.map RFNode.id).Nodup)
    (hs : findNode nodes p.source = some s)
    (ht : findNode nodes p.target = some t)
    (hcan : canConnectNodes s t = true)
    (hnogate : s.type = "condition" →
      edges.filter (fun e => e.source == p.source) = [])
    (hinv : condInvariant nodes edges) :
    condInvariant nodes (addEdge p edges) := by
  unfold addEdge
  split_ifs with h1 h2
  · exact hinv
  · exact hinv
  · unfold condInvariant
    intro n hn hcond
    by_cases hid : p.source = n.id
    · obtain ⟨hsmem, hsid⟩ := findNode_some hs
      obtain ⟨htmem, htid⟩ := findNode_some ht
      have hsn : s = n := eq_of_same_id hnd hsmem hn (by rw [hsid, hid])
      have hstype : s.type = "condition" := by rw [hsn]; exact hcond
      have hz : edges.filter (fun e => e.source == n.id) = [] := by
        rw [← hid]; exact hnogate hstype
      have hfl : (edges ++ [RFEdge.mk p.source p.target]).filter
          (fun e => e.source == n.id) = [RFEdge.mk p.source p.target] := by
        rw [List.filter_append, hz]
        simp [hid]
      rw [hfl]
      have httype : t.type = "listener" := by
        rcases (canConnect_table s t).mp hcan with
          ⟨_, h⟩ | ⟨h, _⟩ | ⟨h, _⟩
        · exact h
        · rw [hstype] at h; exact absurd h (by decide)
        · rw [hstype] at h; exact absurd h (by decide)
      refine ⟨by simp, ?_⟩
      intro e he
      have he' : e = RFEdge.mk p.source p.target := by simpa using he
      exact ⟨t, htmem, by rw [he', htid], httype⟩
    · have hfl : (edges ++ [RFEdge.mk p.source p.target]).filter
          (fun e => e.source == n.id) = edges.filter
          (fun e => e.source == n.id) := by
        rw [List.filter_append]
        simp [hid]
      rw [hfl]
      exact hinv n hn hcond

/-- One `onConnect` step with both endpoints resolved preserves the
Condition fan-out invariant. -/
theorem condInvariant_step (nodes : List RFNode) (edges : List RFEdge)
    (p : ConnParams) (s t : RFNode)
    (hnd : (nodes.map RFNode.id).Nodup)
    (hs : findNode nodes p.source = some s)
    (ht : findNode nodes p.target = some t)
    (hinv : condInvariant nodes edges) :
    condInvariant nodes (onConnect nodes edges p).2 := by
  unfold onConnect
  rw [hs, ht]
  by_cases hcan : canConnectNodes s t
  · by_cases hgate : (s.type == "condition" &&
        decide ((edges.filter (fun e => e.source == p.source)).length > 0))
        = true
    · simpa [hcan, hgate] using hinv
    · have hnogate : s.type = "condition" →
          edges.filter (fun e => e.source == p.source) = [] := by
        intro hst
        by_contra hne
        exact hgate (by
          simp [hst, List.length_pos.mpr hne])
      have hres := condInvariant_addEdge nodes edges p s t hnd hs ht hcan
        hnogate hinv
      simpa [hcan, hgate] using hres
  · simpa [hcan] using hinv

/-- C2 amended: on a canvas with pairwise-distinct node ids, any
sequence of `onConnect` steps whose source and target ids both resolve
to nodes preserves the Condition fan-out invariant: every Condition
node keeps at most one outgoing edge, and an outgoing edge it has
targets a Listener. -/
theorem condition_fanout_invariant_preserved (nodes : List RFNode)
    (hnd : (nodes.map RFNode.id).Nodup) (edges : List RFEdge)
    (ps : List ConnParams)
    (hres : ∀ q ∈ ps, (findNode nodes q.source).isSome = true ∧
      (findNode nodes q.target).isSome = true)
    (hinv : condInvariant nodes edges) :
    condInvariant nodes (runConnects nodes edges ps) := by
  induction ps generalizing edges with
  | nil => simpa [runConnects] using hinv
  | cons p ps ih =>
    have hp := hres p (List.mem_cons_self p ps)
    obtain ⟨s, hs⟩ := Option.isSome_iff_exists.mp hp.1
    obtain ⟨t, ht⟩ := Option.isSome_iff_exists.mp hp.2
    have hstep := condInvariant_step nodes edges p s t hnd hs ht hinv
    simpa [runConnects] using
      ih ((onConnect nodes edges p).2)
        (fun q hq => hres q (List.mem_cons_of_mem p hq)) hstep

/-- C2 amended witness: running c → l, l → e, c → l (a rejected
duplicate) on the demo canvas keeps the invariant. -/
theorem condition_fanout_invariant_preserved_witness :
    condInvariant demoNodes
      (runConnects demoNodes []
        [⟨"c", "l"⟩, ⟨"l", "e"⟩, ⟨"c", "l"⟩]) :=
  condition_fanout_invariant_preserved demoNodes (by decide) []
    [⟨"c", "l"⟩, ⟨"l", "e"⟩, ⟨"c", "l"⟩] (by decide) (by decide)

/-- Adding a validated edge preserves Event terminality: the table only
admits Condition or Listener sources, so on a duplicate-free canvas the
new edge cannot leave an event node. -/
theorem eventInvariant_addEdge (nodes : List RFNode) (edges : List RFEdge)
    (p : ConnParams) (s t : RFNode)
    (hnd : (nodes.map RFNode.id).Nodup)
    (hs : findNode nodes p.source = some s)
    ( _ht : findNode nodes p.target = some t)
    (hcan : canConnectNodes s t = true)
    (hinv : eventInvariant nodes edges) :
    eventInvariant nodes (addEdge p edges) := by
  unfold addEdge
  split_ifs with h1 h2
  · exact hinv
  · exact hinv
  · unfold eventInvariant
    intro n hn hev
    by_cases hid : p.source = n.id
    · exfalso
      obtain ⟨hsmem, hsid⟩ := findNode_some hs
      have hsn : s = n := eq_of_same_id hnd hsmem hn (by rw [hsid, hid])
      have hstype : s.type = "event" := by rw [hsn]; exact hev
      have := canConnectNodes_false_of_event (t := t) hstype
      rw [hcan] at this
      cases this
    · have hfl : (edges ++ [RFEdge.mk p.source p.target]).filter
          (fun e => e.source == n.id) = edges.filter
          (fun e => e.source == n.id) := by
        rw [List.filter_append]
        simp [hid]
      rw [hfl]
      exact hinv n hn hev

/-- One `onConnect` step with both endpoints resolved preserves Event
terminality. -/
theorem eventInvariant_step (nodes : List RFNode) (edges : List RFEdge)
    (p : ConnParams) (s t : RFNode)
    (hnd : (nodes.map RFNode.id).Nodup)
    (hs : findNode nodes p.source = some s)
    (ht : findNode nodes p.target = some t)
    (hinv : eventInvariant nodes edges) :
    eventInvariant nodes (onConnect nodes edges p).2 := by
  unfold onConnect
  rw [hs, ht]
  by_cases hcan : canConnectNodes s t
  · by_cases hgate : (s.type == "condition" &&
        decide ((edges.filter (fun e => e.source == p.source)).length > 0))
        = true
    · simpa [hcan, hgate] using hinv
    · have hres := eventInvariant_addEdge nodes edges p s t hnd hs ht hcan
        hinv
      simpa [hcan, hgate] using hres
  · simpa [hcan] using hinv

/-- C7 amended: on a canvas with pairwise-distinct node ids, a link
attempt from an Event node to any resolved target is rejected with the
edge set untouched, and any sequence of `onConnect` steps whose
endpoint ids both resolve keeps every Event node's outgoing set
empty. -/
theorem event_nodes_terminal (nodes : List RFNode)
    (hnd : (nodes.map RFNode.id).Nodup) :
    (∀ edges p s t, findNode nodes p.source = some s →
      findNode nodes p.target = some t → s.type = "event" →
      (onConnect nodes edges p).1.isSome = true ∧
      (onConnect nodes edges p).2 = edges) ∧
    (∀ edges ps, (∀ q ∈ ps, (findNode nodes q.source).isSome = true ∧
        (findNode nodes q.target).isSome = true) →
      eventInvariant nodes edges →
      eventInvariant nodes (runConnects nodes edges ps)) := by
  constructor
  · intro edges p s t hs ht hsev
    unfold onConnect
    rw [hs, ht]
    simp [canConnectNodes_false_of_event (t := t) hsev]
  · intro edges ps hres hinv
    induction ps generalizing edges with
    | nil => simpa [runConnects] using hinv
    | cons p ps ih =>
      have hp := hres p (List.mem_cons_self p ps)
      obtain ⟨s, hs⟩ := Option.isSome_iff_exists.mp hp.1
      obtain ⟨t, ht⟩ := Option.isSome_iff_exists.mp hp.2
      have hstep := eventInvariant_step nodes edges p s t hnd hs ht hinv
      simpa [runConnects] using
        ih ((onConnect nodes edges p).2)
          (fun q hq => hres q (List.mem_cons_of_mem p hq)) hstep

/-- C7 amended witness: running c → l then l → e on the demo canvas
leaves every event node without outgoing edges. -/
theorem event_nodes_terminal_witness :
    eventInvariant demoNodes
      (runConnects demoNodes [] [⟨"c", "l"⟩, ⟨"l", "e"⟩]) :=
  (event_nodes_terminal demoNodes (by decide)).2 []
    [⟨"c", "l"⟩, ⟨"l", "e"⟩] (by decide) (by decide)

/-- C8: after deleting a listener, no remaining node's `next_nodes`
contains the deleted id; every Condition that pointed at it (and, per
the fan-out invariant, pointed at nothing else) survives with an empty
`next_nodes` (Unlinked); the Events and Accessories it pointed at still
exist in the store; and a target referenced by no other node is an
orphan afterwards. -/
theorem delete_listener_cascades (store : List PyNode) (lid : String)
    (L : PyNode) (hmem : L ∈ store) (hid : L.node_id = lid)
    (hkind : L.node_type = "listener")
    (hcond1 : ∀ c ∈ store, c.node_type = "condition" →
      lid ∈ c.next_nodes → c.next_nodes = [lid]) :
    (∀ n ∈ delete_node store lid, lid ∉ n.next_nodes) ∧
    (∀ c ∈ store, c.node_type = "condition" → lid ∈ c.next_nodes →
      c.node_id ≠ lid →
      { c with next_nodes := ([] : List String) } ∈ delete_node store lid) ∧
    (∀ t ∈ store, (t.node_type = "event" ∨ t.node_type = "accessory") →
      t.node_id ∈ L.next_nodes → t.node_id ≠ lid →
      ∃ n ∈ delete_node store lid, n.node_id = t.node_id) ∧
    (∀ tid, tid ≠ lid →
      (∀ n ∈ store, n.node_id ≠ lid → tid ∉ n.next_nodes) →
      ∀ n ∈ delete_node store lid, tid ∉ n.next_nodes) := by
  refine ⟨?_, ?_, ?_, ?_⟩
  · intro n hn
    obtain ⟨m, hm, rfl⟩ := List.mem_map.mp hn
    intro hin
    have := (List.mem_filter.mp hin).2
    simp at this
  · intro c hc hcnd hlin hcne
    have hcfil : c ∈ store.filter (fun n => n.node_id != lid) :=
      List.mem_filter.mpr ⟨hc, by simp [hcne]⟩
    refine List.mem_map.mpr ⟨c, hcfil, ?_⟩
    rw [hcond1 c hc hcnd hlin]
    simp
  · intro t ht htype htin htne
    have htfil : t ∈ store.filter (fun n => n.node_id != lid) :=
      List.mem_filter.mpr ⟨ht, by simp [htne]⟩
    exact ⟨{ t with next_nodes := t.next_nodes.filter (fun m => m != lid) },
      List.mem_map.mpr ⟨t, htfil, rfl⟩, rfl⟩
  · intro tid htid honly n hn
    obtain ⟨m, hmfil, rfl⟩ := List.mem_map.mp hn
    have hm : m ∈ store := (List.mem_filter.mp hmfil).1
    have hmne : m.node_id ≠ lid := by
      have := (List.mem_filter.mp hmfil).2
      simpa using this
    intro hin
    exact honly m hm hmne (List.mem_of_mem_filter hin)

/-- C8 witness: deleting listener l1 from the demo store leaves the
condition c1 unlinked. -/
theorem delete_listener_cascades_witness :
    ({ node_id := "c1", node_type := "condition", data := [],
       next_nodes := [] } : PyNode) ∈ delete_node demoStore "l1" :=
  (delete_listener_cascades demoStore "l1"
      { node_id := "l1", node_type := "listener", data := [],
        next_nodes := ["e1"] }
      (by decide) rfl rfl (by decide)).2.1
    { node_id := "c1", node_type := "condition", data := [],
      next_nodes := ["l1"] }
    (by decide) rfl (by decide) (by decide)
